import Mathlib

/-!
Verification of the LRP soil-moisture-balance accounting core.

The definitions below are a shallow embedding, over the real numbers, of the
functions in lrp_update/smb_for_LRP.py and of the aggregation and compliance
logic in lrp_update/query_openet.py.  Python floats are modelled as members
of the field of real numbers; the power operator on a nonnegative base is
the real power function.
-/

noncomputable section

/-- Module-level constant RUNOFF_FRACTION from smb_for_LRP.py. -/
def RUNOFF_FRACTION : ℝ := 0.0

/-- Module-level constant INITIAL_SOIL_STOR from smb_for_LRP.py. -/
def INITIAL_SOIL_STOR : ℝ := 0

/-- Module-level constant SOIL_STOR_CAP from smb_for_LRP.py. -/
def SOIL_STOR_CAP : ℝ := 16

/-- Function eff_precip from smb_for_LRP.py:
min of precip, et, and the clamped empirical curve. -/
def eff_precip (precip et : ℝ) : ℝ :=
  min precip (min et
    (max 0 (0.70917 * precip ^ (0.82416 : ℝ) - 0.11556) * (10 : ℝ) ^ (0.02426 * et)))

/-- Function calc_runoff from smb_for_LRP.py. -/
def calc_runoff (ppt frac : ℝ) : ℝ := ppt * frac

/-- Function rem_ppt from smb_for_LRP.py. -/
def rem_ppt (ppt amount : ℝ) : ℝ := ppt - amount

/-- Function soil_stor_before_CU from smb_for_LRP.py. -/
def soil_stor_before_CU (cap prev_ss ppt_after_ro : ℝ) : ℝ :=
  min cap (prev_ss + ppt_after_ro)

/-- Function CU_of_soil_stor from smb_for_LRP.py. -/
def CU_of_soil_stor (ss_before_CU et eff_ppt : ℝ) : ℝ :=
  min ss_before_CU (et - eff_ppt)

/-- Function soil_stor_after_CU from smb_for_LRP.py. -/
def soil_stor_after_CU (ss_before_CU CU_soil_stor : ℝ) : ℝ :=
  ss_before_CU - CU_soil_stor

/-- Function CU_of_applied_water from smb_for_LRP.py. -/
def CU_of_applied_water (et eff_ppt CU_ss : ℝ) : ℝ :=
  et - eff_ppt - CU_ss

/-- Function CU_of_precip from smb_for_LRP.py. -/
def CU_of_precip (eff_ppt CU_ss : ℝ) : ℝ :=
  eff_ppt + CU_ss

/-- The six-component return value of smb_calc and smb_calc_t0, in the
order of the Python return tuple. -/
structure SmbOut where
  eff_ppt : ℝ
  ro : ℝ
  CU_ss : ℝ
  ss_after_CU : ℝ
  cu_AW : ℝ
  cu_ppt : ℝ

/-- Function smb_calc from smb_for_LRP.py: one recurrence step for t greater
than zero, with the capacity-clamped recharge of storage. -/
def smb_calc (precip et ro_frac ss_capacity prev_ss : ℝ) : SmbOut :=
  let eff_ppt := eff_precip precip et
  let rem_ppt_after_eff_ppt := rem_ppt precip eff_ppt
  let ro := calc_runoff rem_ppt_after_eff_ppt ro_frac
  let rem_ppt_after_runoff := rem_ppt rem_ppt_after_eff_ppt ro
  let ss_before_CU := soil_stor_before_CU ss_capacity prev_ss rem_ppt_after_runoff
  let CU_ss := CU_of_soil_stor ss_before_CU et eff_ppt
  let ss_after_CU := soil_stor_after_CU ss_before_CU CU_ss
  let cu_AW := CU_of_applied_water et eff_ppt CU_ss
  let cu_ppt := CU_of_precip eff_ppt CU_ss
  ⟨eff_ppt, ro, CU_ss, ss_after_CU, cu_AW, cu_ppt⟩

/-- Function smb_calc_t0 from smb_for_LRP.py: the first recurrence step, in
which storage before use is the carried previous storage, with no recharge
and no capacity clamp. -/
def smb_calc_t0 (precip et ro_frac ss_capacity prev_ss : ℝ) : SmbOut :=
  let eff_ppt := eff_precip precip et
  let rem_ppt_after_eff_ppt := rem_ppt precip eff_ppt
  let ro := calc_runoff rem_ppt_after_eff_ppt ro_frac
  let rem_ppt_after_runoff := rem_ppt rem_ppt_after_eff_ppt ro
  let ss_before_CU := prev_ss
  let CU_ss := CU_of_soil_stor ss_before_CU et eff_ppt
  let ss_after_CU := soil_stor_after_CU ss_before_CU CU_ss
  let cu_AW := CU_of_applied_water et eff_ppt CU_ss
  let cu_ppt := CU_of_precip eff_ppt CU_ss
  ⟨eff_ppt, ro, CU_ss, ss_after_CU, cu_AW, cu_ppt⟩

/-- The loop body of calc_SMB_for_time_series for indices after the first:
each step applies smb_calc with the module constants and carries the
resulting storage forward. -/
def smb_series_from (prev : ℝ) : List (ℝ × ℝ) → List SmbOut
  | [] => []
  | pe :: rest =>
      let s := smb_calc pe.1 pe.2 RUNOFF_FRACTION SOIL_STOR_CAP prev
      s :: smb_series_from s.ss_after_CU rest

/-- Function calc_SMB_for_time_series from smb_for_LRP.py: the first index
uses smb_calc_t0 with INITIAL_SOIL_STOR, later indices use smb_calc with the
stored value of the previous step.  The paired series are traversed in
step with each other, as the Python loop indexes both lists by t. -/
def calc_SMB_for_time_series (ppt_series et_series : List ℝ) : List SmbOut :=
  match List.zip ppt_series et_series with
  | [] => []
  | pe :: rest =>
      let s := smb_calc_t0 pe.1 pe.2 RUNOFF_FRACTION SOIL_STOR_CAP INITIAL_SOIL_STOR
      s :: smb_series_from s.ss_after_CU rest

/-- Constant INCHES_TO_FEET from query_openet.py. -/
def INCHES_TO_FEET : ℝ := 1 / 12

/-- Constant FEET_TO_INCHES from query_openet.py. -/
def FEET_TO_INCHES : ℝ := 12

/-- Running cumulative sums with a carried accumulator; the embedding of the
pandas cumsum method on a column. -/
def cumsum_from (acc : ℝ) : List ℝ → List ℝ
  | [] => []
  | x :: xs => (acc + x) :: cumsum_from (acc + x) xs

/-- The cumsum of a column starting from zero, as in
df_sum of generate_lrp_report where total_cons_use_AW_af is the cumsum of
cons_use_AW_af. -/
def cumsum (xs : List ℝ) : List ℝ := cumsum_from 0 xs

/-- The maximum of a column, as computed by the pandas max method on the
nonempty quarterly table; zero on the empty list, which the report never
produces. -/
def pdMax : List ℝ → ℝ
  | [] => 0
  | x :: xs => xs.foldl max x

/-- Column cons_use_AW_af of generate_lrp_report: the applied-water
consumptive use in inches converted to acre-feet with the repurposed area. -/
def cons_use_AW_af (cons_use_AW_col : List ℝ) (area : ℝ) : List ℝ :=
  cons_use_AW_col.map (fun v => v * INCHES_TO_FEET * area)

/-- Column total_cons_use_AW_af of generate_lrp_report: cumulative acre-feet
across the quarters in canonical order. -/
def total_cons_use_AW_af (af_col : List ℝ) : List ℝ := cumsum af_col

/-- The compliance verdict computed in Pdf.page_body: the maximum of the
cumulative acre-feet column is compared with the configured maximum
consumptive use, with less-or-equal counting as compliant. -/
def is_compliant (total_col : List ℝ) (maximum_consumptive_use : ℝ) : Prop :=
  pdMax total_col ≤ maximum_consumptive_use

/-- The water-year derivation in generate_lrp_report: the calendar year when
the month is before October, otherwise the calendar year plus one. -/
def water_year (year : ℤ) (month : ℕ) : ℤ :=
  if month < 10 then year else year + 1

/-- The four water-year quarters used as labels of the cut in
generate_lrp_report. -/
inductive Quarter where
  | Q1
  | Q2
  | Q3
  | Q4
deriving DecidableEq

/-- The quarter assignment of generate_lrp_report: a cut of the month into
the right-closed bins bounded by 0, 3, 6, 9 and 12 with labels Q2, Q3, Q4
and Q1; months outside the bins get no label. -/
def quarter_of_month (month : ℕ) : Option Quarter :=
  if month = 0 then none
  else if month ≤ 3 then some Quarter.Q2
  else if month ≤ 6 then some Quarter.Q3
  else if month ≤ 9 then some Quarter.Q4
  else if month ≤ 12 then some Quarter.Q1
  else none

/-- The category order of the quarter labels as given to the cut. -/
def quarter_categories : List Quarter :=
  [Quarter.Q2, Quarter.Q3, Quarter.Q4, Quarter.Q1]

/-- The canonical reindexing order of the quarterly table. -/
def canonical_quarters : List Quarter :=
  [Quarter.Q1, Quarter.Q2, Quarter.Q3, Quarter.Q4]

/-- The numeric columns of one row of the per-unit smb frame that the
quarterly groupby sums. -/
structure QRow where
  ss : ℝ
  ppt_eff : ℝ
  runoff : ℝ
  cons_use_ss : ℝ
  cons_use_AW : ℝ
  cons_use_ppt : ℝ
  pp_wght_av : ℝ
  et_wght_av : ℝ

/-- Componentwise zero of the quarterly quantities; the value fillna writes
into a reindexed row with no samples. -/
def zeroQ : QRow := ⟨0, 0, 0, 0, 0, 0, 0, 0⟩

/-- Componentwise addition of the quarterly quantities. -/
def addQ (a b : QRow) : QRow :=
  ⟨a.ss + b.ss, a.ppt_eff + b.ppt_eff, a.runoff + b.runoff,
   a.cons_use_ss + b.cons_use_ss, a.cons_use_AW + b.cons_use_AW,
   a.cons_use_ppt + b.cons_use_ppt, a.pp_wght_av + b.pp_wght_av,
   a.et_wght_av + b.et_wght_av⟩

/-- The sum a pandas groupby computes over the rows of one group. -/
def sumQ (rows : List QRow) : QRow := rows.foldr addQ zeroQ

/-- One row of the per-unit smb frame, indexed by its calendar date reduced
to year and month. -/
structure SmbRow where
  year : ℤ
  month : ℕ
  vals : QRow

/-- Boolean test used to group a row into a quarter. -/
def has_quarter (r : SmbRow) (q : Quarter) : Bool :=
  decide (quarter_of_month r.month = some q)

/-- The water-year filter of generate_lrp_report: keep the rows whose
derived water year equals the target. -/
def filter_water_year (rows : List SmbRow) (wy : ℤ) : List SmbRow :=
  rows.filter (fun r => decide (water_year r.year r.month = wy))

/-- The groupby on the quarter column with observed groups only: one row per
quarter label, in category order, restricted to the labels that occur, each
carrying the componentwise sum of its rows. -/
def groupby_Q (rows : List SmbRow) : List (Quarter × QRow) :=
  (quarter_categories.filter (fun q => rows.any (fun r => has_quarter r q))).map
    (fun q => (q, sumQ ((rows.filter (fun r => has_quarter r q)).map SmbRow.vals)))

/-- The reindex to the canonical quarter order followed by fillna with zero:
every canonical quarter gets a row, holding its group sum when the quarter
was observed and the zero row otherwise. -/
def reindex_fillna (groups : List (Quarter × QRow)) : List (Quarter × QRow) :=
  canonical_quarters.map (fun q => (q, (groups.lookup q).getD zeroQ))

/-- The quarterly table df_sum of generate_lrp_report for one unit and one
target water year: filter to the water year, group by quarter, reindex to
canonical order and zero-fill. -/
def df_sum_quarters (rows : List SmbRow) (wy : ℤ) : List (Quarter × QRow) :=
  reindex_fillna (groupby_Q (filter_water_year rows wy))

/-- One row of a source table of the water-balance calculation: a field
identifier, a time key, and the volumetric and area quantities. -/
structure FldRow where
  EKIfld : String
  time : ℤ
  acre_feet : ℝ
  acres : ℝ

/-- The error raised in run_consumptive_use_calcs when a source table has no
rows for the fields of a unit; the message names the missing variable and
the field identifiers of the unit. -/
structure NoDataMsg where
  varName : String
  fld_ids : List String
deriving DecidableEq

/-- The sorted distinct time keys of a table, as produced by a pandas
groupby on the time column. -/
def group_times (rows : List FldRow) : List ℤ :=
  ((rows.map FldRow.time).dedup).insertionSort (· ≤ ·)

/-- The depth-weighted average series of run_consumptive_use_calcs: group
the rows by time, and divide the summed acre-feet, converted to inches, by
the summed acres. -/
def depth_av (rows : List FldRow) : List (ℤ × ℝ) :=
  (group_times rows).map (fun t =>
    let grp := rows.filter (fun r => decide (r.time = t))
    (t, (grp.map FldRow.acre_feet).sum * FEET_TO_INCHES / (grp.map FldRow.acres).sum))

/-- Method _run_consumptive_use_calcs of CalculateWaterBalance: restrict
each source table to the field identifiers of the unit, fail with a no-data
message when a restriction is empty (the et table is checked first), build
the two weighted depth series, and run the smb recurrence on them. -/
def run_consumptive_use_calcs (df_et df_pp : List FldRow) (fld_keys : List String) :
    Except NoDataMsg (List (ℤ × ℝ) × List (ℤ × ℝ) × List SmbOut) :=
  let det := df_et.filter (fun r => fld_keys.contains r.EKIfld)
  if det.isEmpty then
    Except.error ⟨"evapotranspiration", fld_keys⟩
  else
    let df_et_av := depth_av det
    let dpp := df_pp.filter (fun r => fld_keys.contains r.EKIfld)
    if dpp.isEmpty then
      Except.error ⟨"precipitation", fld_keys⟩
    else
      let df_pp_av := depth_av dpp
      Except.ok (df_pp_av, df_et_av,
        calc_SMB_for_time_series (df_pp_av.map Prod.snd) (df_et_av.map Prod.snd))

/- Basic facts about the effective precipitation function. -/

lemma eff_precip_le_precip (precip et : ℝ) : eff_precip precip et ≤ precip :=
  min_le_left _ _

lemma eff_precip_le_et (precip et : ℝ) : eff_precip precip et ≤ et :=
  le_trans (min_le_right _ _) (min_le_left _ _)

lemma eff_precip_nonneg (precip et : ℝ) (hp : 0 ≤ precip) (he : 0 ≤ et) :
    0 ≤ eff_precip precip et := by
  refine le_min hp (le_min he ?_)
  exact mul_nonneg (le_max_left 0 _) (Real.rpow_nonneg (by norm_num) _)

/-- Mass conservation (claim C1): in both step variants the sum of the
consumptive use of applied water and the consumptive use of precipitation
equals the et input exactly, for all real inputs, independent of the
storage-policy branch. -/
theorem smb_mass_conservation (precip et ro_frac ss_capacity prev_ss : ℝ) :
    (smb_calc precip et ro_frac ss_capacity prev_ss).cu_AW
      + (smb_calc precip et ro_frac ss_capacity prev_ss).cu_ppt = et ∧
    (smb_calc_t0 precip et ro_frac ss_capacity prev_ss).cu_AW
      + (smb_calc_t0 precip et ro_frac ss_capacity prev_ss).cu_ppt = et := by
  constructor <;>
    simp [smb_calc, smb_calc_t0, CU_of_applied_water, CU_of_precip]

/-- Effective precipitation contract (claim C2): for nonnegative inputs the
result is nonnegative, bounded by the minimum of precip and et, and equals
the stated min-of-three formula. -/
theorem eff_precip_spec (precip et : ℝ) (hp : 0 ≤ precip) (he : 0 ≤ et) :
    0 ≤ eff_precip precip et ∧
    eff_precip precip et ≤ min precip et ∧
    eff_precip precip et =
      min precip (min et
        (max 0 (0.70917 * precip ^ (0.82416 : ℝ) - 0.11556)
          * (10 : ℝ) ^ (0.02426 * et))) := by
  refine ⟨eff_precip_nonneg precip et hp he, ?_, rfl⟩
  exact le_min (eff_precip_le_precip precip et) (eff_precip_le_et precip et)

/-- Witness for eff_precip_spec at precip one and et two. -/
theorem eff_precip_spec_witness :
    (0 : ℝ) ≤ 1 ∧ (0 : ℝ) ≤ 2 ∧
    (0 ≤ eff_precip 1 2 ∧
     eff_precip 1 2 ≤ min 1 2 ∧
     eff_precip 1 2 =
       min 1 (min 2
         (max 0 (0.70917 * (1 : ℝ) ^ (0.82416 : ℝ) - 0.11556)
           * (10 : ℝ) ^ ((0.02426 : ℝ) * 2)))) :=
  ⟨by norm_num, by norm_num, eff_precip_spec 1 2 (by norm_num) (by norm_num)⟩

/-- Storage-before-use policy (claim C3): the storage available for use at
the first step, recovered from the outputs as storage after use plus the
consumptive use of soil storage, equals the supplied previous storage
exactly, with no recharge and no capacity clamp; at every later step it
equals the capacity-clamped sum of the carried storage and the remainder of
precipitation after effective precipitation and runoff. -/
theorem storage_before_use_policy (precip et ro_frac ss_capacity prev_ss : ℝ) :
    (smb_calc_t0 precip et ro_frac ss_capacity prev_ss).ss_after_CU
      + (smb_calc_t0 precip et ro_frac ss_capacity prev_ss).CU_ss = prev_ss ∧
    (smb_calc precip et ro_frac ss_capacity prev_ss).ss_after_CU
      + (smb_calc precip et ro_frac ss_capacity prev_ss).CU_ss
      = min ss_capacity
          (prev_ss + ((precip - eff_precip precip et)
            - (precip - eff_precip precip et) * ro_frac)) := by
  constructor <;>
    simp [smb_calc, smb_calc_t0, soil_stor_before_CU, soil_stor_after_CU,
      CU_of_soil_stor, rem_ppt, calc_runoff]

/- Invariants of a single smb_calc step with runoff fraction zero. -/

lemma smb_calc_step_inv (p e cap prev : ℝ) (hp : 0 ≤ p) (he : 0 ≤ e)
    (hcap : 0 ≤ cap) (hprev : 0 ≤ prev) :
    0 ≤ (smb_calc p e 0 cap prev).eff_ppt ∧
    (smb_calc p e 0 cap prev).ro = 0 ∧
    0 ≤ (smb_calc p e 0 cap prev).CU_ss ∧
    0 ≤ (smb_calc p e 0 cap prev).ss_after_CU ∧
    (smb_calc p e 0 cap prev).ss_after_CU ≤ cap ∧
    0 ≤ (smb_calc p e 0 cap prev).cu_AW ∧
    0 ≤ (smb_calc p e 0 cap prev).cu_ppt := by
  have hFp : eff_precip p e ≤ p := eff_precip_le_precip p e
  have hFe : eff_precip p e ≤ e := eff_precip_le_et p e
  have hF0 : 0 ≤ eff_precip p e := eff_precip_nonneg p e hp he
  simp only [smb_calc, soil_stor_before_CU, soil_stor_after_CU, CU_of_soil_stor,
    CU_of_applied_water, CU_of_precip, rem_ppt, calc_runoff, mul_zero, sub_zero]
  have hb0 : 0 ≤ min cap (prev + (p - eff_precip p e)) :=
    le_min hcap (by linarith)
  have hbc : min cap (prev + (p - eff_precip p e)) ≤ cap := min_le_left _ _
  have hcu0 : 0 ≤ min (min cap (prev + (p - eff_precip p e))) (e - eff_precip p e) :=
    le_min hb0 (by linarith)
  have hcub : min (min cap (prev + (p - eff_precip p e))) (e - eff_precip p e)
      ≤ min cap (prev + (p - eff_precip p e)) := min_le_left _ _
  have hcue : min (min cap (prev + (p - eff_precip p e))) (e - eff_precip p e)
      ≤ e - eff_precip p e := min_le_right _ _
  exact ⟨hF0, by simp, hcu0, by linarith, by linarith, by linarith, by linarith⟩

lemma smb_calc_t0_step_inv (p e cap : ℝ) (hp : 0 ≤ p) (he : 0 ≤ e) :
    0 ≤ (smb_calc_t0 p e 0 cap 0).eff_ppt ∧
    (smb_calc_t0 p e 0 cap 0).ro = 0 ∧
    (smb_calc_t0 p e 0 cap 0).CU_ss = 0 ∧
    (smb_calc_t0 p e 0 cap 0).ss_after_CU = 0 ∧
    0 ≤ (smb_calc_t0 p e 0 cap 0).cu_AW ∧
    0 ≤ (smb_calc_t0 p e 0 cap 0).cu_ppt := by
  have hFe : eff_precip p e ≤ e := eff_precip_le_et p e
  have hF0 : 0 ≤ eff_precip p e := eff_precip_nonneg p e hp he
  have hmin : min (0 : ℝ) (e - eff_precip p e) = 0 := min_eq_left (by linarith)
  simp only [smb_calc_t0, soil_stor_after_CU, CU_of_soil_stor,
    CU_of_applied_water, CU_of_precip, rem_ppt, calc_runoff, mul_zero, sub_zero, hmin]
  exact ⟨hF0, by simp, by simp, by norm_num, by linarith, by linarith⟩

lemma RUNOFF_FRACTION_eq : RUNOFF_FRACTION = (0 : ℝ) := by
  norm_num [RUNOFF_FRACTION]

lemma SOIL_STOR_CAP_nonneg : (0 : ℝ) ≤ SOIL_STOR_CAP := by
  norm_num [SOIL_STOR_CAP]

lemma INITIAL_SOIL_STOR_eq : INITIAL_SOIL_STOR = (0 : ℝ) := rfl

/- Every element of the tail of the series keeps all six components
nonnegative and the storage below the capacity. -/

lemma smb_series_from_inv (pairs : List (ℝ × ℝ)) :
    ∀ prev, 0 ≤ prev → (∀ pe ∈ pairs, 0 ≤ pe.1 ∧ 0 ≤ pe.2) →
      ∀ s ∈ smb_series_from prev pairs,
        0 ≤ s.eff_ppt ∧ 0 ≤ s.ro ∧ 0 ≤ s.CU_ss ∧
        (0 ≤ s.ss_after_CU ∧ s.ss_after_CU ≤ SOIL_STOR_CAP) ∧
        0 ≤ s.cu_AW ∧ 0 ≤ s.cu_ppt := by
  induction pairs with
  | nil => intro prev _ _ s hs; simp [smb_series_from] at hs
  | cons pe rest ih =>
      intro prev hprev hpairs s hs
      rw [smb_series_from] at hs
      have hpe : 0 ≤ pe.1 ∧ 0 ≤ pe.2 := hpairs pe (List.mem_cons_self pe rest)
      have hstep := smb_calc_step_inv pe.1 pe.2 SOIL_STOR_CAP prev hpe.1 hpe.2
        SOIL_STOR_CAP_nonneg hprev
      rw [RUNOFF_FRACTION_eq] at hs
      rcases List.mem_cons.mp hs with h | h
      · subst h
        exact ⟨hstep.1, le_of_eq hstep.2.1.symm, hstep.2.2.1,
          ⟨hstep.2.2.2.1, hstep.2.2.2.2.1⟩, hstep.2.2.2.2.2.1, hstep.2.2.2.2.2.2⟩
      · exact ih (smb_calc pe.1 pe.2 0 SOIL_STOR_CAP prev).ss_after_CU
          hstep.2.2.2.1
          (fun q hq => hpairs q (List.mem_cons_of_mem pe hq)) s h

/-- Bounded storage in generated series (claim C4): in a series produced
from nonnegative equal-length inputs, with the configured runoff fraction
zero and initial storage zero, every storage value after the first step lies
between zero and the capacity; and one capacity-clamped recurrence step with
runoff fraction zero preserves the bound for any nonnegative capacity and
carried storage. -/
theorem storage_bound_series (ppt_series et_series : List ℝ)
    (hp : ∀ x ∈ ppt_series, 0 ≤ x) (he : ∀ x ∈ et_series, 0 ≤ x)
    (hlen : ppt_series.length = et_series.length) :
    (∀ s ∈ (calc_SMB_for_time_series ppt_series et_series).drop 1,
        0 ≤ s.ss_after_CU ∧ s.ss_after_CU ≤ SOIL_STOR_CAP) ∧
    (∀ p e cap prev : ℝ, 0 ≤ p → 0 ≤ e → 0 ≤ cap → 0 ≤ prev →
        0 ≤ (smb_calc p e 0 cap prev).ss_after_CU ∧
        (smb_calc p e 0 cap prev).ss_after_CU ≤ cap) := by
  constructor
  · cases hz : List.zip ppt_series et_series with
    | nil => simp [calc_SMB_for_time_series, hz]
    | cons pe rest =>
        intro s hs
        rw [calc_SMB_for_time_series, hz] at hs
        simp only [List.drop_succ_cons, List.drop_zero] at hs
        have hpe : pe.1 ∈ ppt_series ∧ pe.2 ∈ et_series := by
          have : pe ∈ List.zip ppt_series et_series := by rw [hz]; exact List.mem_cons_self _ _
          exact ⟨(List.of_mem_zip (a := pe.1) (b := pe.2) (by simpa using this)).1,
            (List.of_mem_zip (a := pe.1) (b := pe.2) (by simpa using this)).2⟩
        have ht0 := smb_calc_t0_step_inv pe.1 pe.2 SOIL_STOR_CAP
          (hp pe.1 hpe.1) (he pe.2 hpe.2)
        have hrest : ∀ q ∈ rest, 0 ≤ q.1 ∧ 0 ≤ q.2 := by
          intro q hq
          have hqz : q ∈ List.zip ppt_series et_series := by
            rw [hz]; exact List.mem_cons_of_mem pe hq
          have := List.of_mem_zip (a := q.1) (b := q.2) (by simpa using hqz)
          exact ⟨hp q.1 this.1, he q.2 this.2⟩
        have hfirst :
            (smb_calc_t0 pe.1 pe.2 RUNOFF_FRACTION SOIL_STOR_CAP INITIAL_SOIL_STOR).ss_after_CU
              = 0 := by
          rw [RUNOFF_FRACTION_eq, INITIAL_SOIL_STOR_eq]
          exact ht0.2.2.2.1
        have := smb_series_from_inv rest
          (smb_calc_t0 pe.1 pe.2 RUNOFF_FRACTION SOIL_STOR_CAP INITIAL_SOIL_STOR).ss_after_CU
          (le_of_eq hfirst.symm) hrest s hs
        exact ⟨this.2.2.2.1.1, this.2.2.2.1.2⟩
  · intro p e cap prev hp0 he0 hcap hprev
    have h := smb_calc_step_inv p e cap prev hp0 he0 hcap hprev
    exact ⟨h.2.2.2.1, h.2.2.2.2.1⟩

/-- Witness for storage_bound_series at the concrete two-step series of the
spec scenario. -/
theorem storage_bound_series_witness :
    (∀ x ∈ [(3.058 : ℝ), 0.518], 0 ≤ x) ∧ (∀ x ∈ [(0.869 : ℝ), 1.394], 0 ≤ x) ∧
    [(3.058 : ℝ), 0.518].length = [(0.869 : ℝ), 1.394].length ∧
    (∀ s ∈ (calc_SMB_for_time_series [3.058, 0.518] [0.869, 1.394]).drop 1,
        0 ≤ s.ss_after_CU ∧ s.ss_after_CU ≤ SOIL_STOR_CAP) :=
  ⟨by norm_num, by norm_num, rfl,
    (storage_bound_series [3.058, 0.518] [0.869, 1.394]
      (by norm_num) (by norm_num) rfl).1⟩

/- Evaluation of the effective precipitation curve at the concrete scenario
inputs: the curve value exceeds the et value, so the min-of-three selects
et. -/

lemma eff_precip_concrete : eff_precip 3.058 0.869 = 0.869 := by
  have hsq : (1.7 : ℝ) ≤ Real.sqrt 3.058 :=
    (Real.le_sqrt' (by norm_num)).mpr (by norm_num)
  have hA : (1.7 : ℝ) ≤ (3.058 : ℝ) ^ (0.82416 : ℝ) := by
    calc (1.7 : ℝ) ≤ Real.sqrt 3.058 := hsq
      _ = (3.058 : ℝ) ^ (1 / 2 : ℝ) := Real.sqrt_eq_rpow 3.058
      _ ≤ (3.058 : ℝ) ^ (0.82416 : ℝ) :=
          Real.rpow_le_rpow_of_exponent_le (by norm_num) (by norm_num)
  have ha : (0.869 : ℝ) ≤ 0.70917 * (3.058 : ℝ) ^ (0.82416 : ℝ) - 0.11556 := by
    nlinarith [hA]
  have ha0 : (0 : ℝ) ≤ 0.70917 * (3.058 : ℝ) ^ (0.82416 : ℝ) - 0.11556 := by linarith
  have hB : (1 : ℝ) ≤ (10 : ℝ) ^ ((0.02426 : ℝ) * 0.869) :=
    Real.one_le_rpow (by norm_num) (by norm_num)
  have hcurve : (0.869 : ℝ) ≤
      max 0 (0.70917 * (3.058 : ℝ) ^ (0.82416 : ℝ) - 0.11556)
        * (10 : ℝ) ^ ((0.02426 : ℝ) * 0.869) := by
    have h1 : max 0 (0.70917 * (3.058 : ℝ) ^ (0.82416 : ℝ) - 0.11556)
        = 0.70917 * (3.058 : ℝ) ^ (0.82416 : ℝ) - 0.11556 := max_eq_right ha0
    rw [h1]
    nlinarith [ha, ha0, hB]
  rw [eff_precip]
  rw [min_eq_left hcurve]
  exact min_eq_right (by norm_num)

/-- Concrete scenario step zero (claim C9): with capacity sixteen, runoff
fraction zero and initial storage zero, the first step on the series with
precip 3.058, 0.518 and et 0.869, 1.394 yields effective precip 0.869,
storage before use zero, zero consumptive use of soil storage, zero storage
after use, zero consumptive use of applied water and consumptive use of
precipitation 0.869; and this step is the head of the generated series. -/
theorem concrete_scenario_step0 :
    (smb_calc_t0 3.058 0.869 RUNOFF_FRACTION SOIL_STOR_CAP INITIAL_SOIL_STOR).eff_ppt
      = 0.869 ∧
    (smb_calc_t0 3.058 0.869 RUNOFF_FRACTION SOIL_STOR_CAP INITIAL_SOIL_STOR).ss_after_CU
      + (smb_calc_t0 3.058 0.869 RUNOFF_FRACTION SOIL_STOR_CAP INITIAL_SOIL_STOR).CU_ss
      = 0 ∧
    (smb_calc_t0 3.058 0.869 RUNOFF_FRACTION SOIL_STOR_CAP INITIAL_SOIL_STOR).CU_ss = 0 ∧
    (smb_calc_t0 3.058 0.869 RUNOFF_FRACTION SOIL_STOR_CAP INITIAL_SOIL_STOR).ss_after_CU
      = 0 ∧
    (smb_calc_t0 3.058 0.869 RUNOFF_FRACTION SOIL_STOR_CAP INITIAL_SOIL_STOR).cu_AW = 0 ∧
    (smb_calc_t0 3.058 0.869 RUNOFF_FRACTION SOIL_STOR_CAP INITIAL_SOIL_STOR).cu_ppt
      = 0.869 ∧
    (calc_SMB_for_time_series [3.058, 0.518] [0.869, 1.394]).head?
      = some (smb_calc_t0 3.058 0.869 RUNOFF_FRACTION SOIL_STOR_CAP INITIAL_SOIL_STOR) := by
  have heff := eff_precip_concrete
  have hz : List.zip [(3.058 : ℝ), 0.518] [(0.869 : ℝ), 1.394]
      = [((3.058 : ℝ), (0.869 : ℝ)), ((0.518 : ℝ), (1.394 : ℝ))] := by
    simp [List.zip]
  refine ⟨?_, ?_, ?_, ?_, ?_, ?_, ?_⟩
  · simp [smb_calc_t0, heff]
  · simp [smb_calc_t0, INITIAL_SOIL_STOR_eq, soil_stor_after_CU, CU_of_soil_stor, heff]
  · simp [smb_calc_t0, INITIAL_SOIL_STOR_eq, CU_of_soil_stor, heff]
  · simp [smb_calc_t0, INITIAL_SOIL_STOR_eq, soil_stor_after_CU, CU_of_soil_stor, heff]
  · simp [smb_calc_t0, INITIAL_SOIL_STOR_eq, CU_of_applied_water, CU_of_soil_stor, heff]
  · simp [smb_calc_t0, INITIAL_SOIL_STOR_eq, CU_of_precip, CU_of_soil_stor, heff]
  · rw [calc_SMB_for_time_series, hz]
    rfl

/- Facts about the cumulative sums and the column maximum. -/

lemma foldl_max_max (t : List ℝ) : ∀ a b : ℝ, t.foldl max (max a b) = max a (t.foldl max b) := by
  induction t with
  | nil => intro a b; rfl
  | cons c t ih =>
      intro a b
      simp only [List.foldl]
      rw [max_assoc, ih]

lemma pdMax_cons (x : ℝ) (l : List ℝ) (h : l ≠ []) :
    pdMax (x :: l) = max x (pdMax l) := by
  cases l with
  | nil => exact absurd rfl h
  | cons y t =>
      simp only [pdMax, List.foldl]
      exact foldl_max_max t x y

lemma cumsum_from_ne_nil (acc : ℝ) (x : ℝ) (xs : List ℝ) :
    cumsum_from acc (x :: xs) ≠ [] := by
  simp [cumsum_from]

lemma cumsum_from_pdMax (xs : List ℝ) : ∀ acc : ℝ, (∀ x ∈ xs, 0 ≤ x) → xs ≠ [] →
    pdMax (cumsum_from acc xs) = acc + xs.sum := by
  induction xs with
  | nil => intro acc _ h; exact absurd rfl h
  | cons x xs ih =>
      intro acc hx _
      cases xs with
      | nil => simp [cumsum_from, pdMax]
      | cons y t =>
          have hx' : ∀ z ∈ y :: t, 0 ≤ z := fun z hz => hx z (List.mem_cons_of_mem x hz)
          have hsum : 0 ≤ (y :: t).sum := List.sum_nonneg hx'
          rw [cumsum_from, pdMax_cons _ _ (cumsum_from_ne_nil _ _ _),
            ih (acc + x) hx' (by simp)]
          rw [max_eq_right (by linarith)]
          simp only [List.sum_cons]
          ring

lemma cumsum_from_getLast (xs : List ℝ) : ∀ acc : ℝ, xs ≠ [] →
    (cumsum_from acc xs).getLast? = some (acc + xs.sum) := by
  induction xs with
  | nil => intro acc h; exact absurd rfl h
  | cons x xs ih =>
      intro acc _
      cases xs with
      | nil => simp [cumsum_from]
      | cons y t =>
          rw [cumsum_from, cumsum_from, List.getLast?_cons_cons, ← cumsum_from,
            ih (acc + x) (by simp)]
          simp only [List.sum_cons]
          norm_num
          ring

lemma cumsum_from_chain (xs : List ℝ) : ∀ acc : ℝ, (∀ x ∈ xs, 0 ≤ x) →
    List.Chain' (· ≤ ·) (cumsum_from acc xs) := by
  induction xs with
  | nil => intro acc _; simp [cumsum_from]
  | cons x xs ih =>
      intro acc hx
      rw [cumsum_from]
      cases xs with
      | nil => simp [cumsum_from]
      | cons y t =>
          rw [cumsum_from]
          refine List.chain'_cons.mpr ⟨?_, ?_⟩
          · have : 0 ≤ y := hx y (by simp)
            linarith
          · rw [← cumsum_from]
            exact ih (acc + x) fun z hz => hx z (List.mem_cons_of_mem x hz)

/-- Nonnegative partitions and cumulative totals (claim C10): every
component of every step of a series generated from nonnegative inputs is
nonnegative, and the cumulative sums of any nonnegative nonempty column are
non-decreasing with last entry the column total, so the column maximum the
compliance check reads equals that final total. -/
theorem partition_nonneg_cumulative (ppt_series et_series : List ℝ)
    (hp : ∀ x ∈ ppt_series, 0 ≤ x) (he : ∀ x ∈ et_series, 0 ≤ x) :
    (∀ s ∈ calc_SMB_for_time_series ppt_series et_series,
        0 ≤ s.eff_ppt ∧ 0 ≤ s.ro ∧ 0 ≤ s.CU_ss ∧ 0 ≤ s.ss_after_CU ∧
        0 ≤ s.cu_AW ∧ 0 ≤ s.cu_ppt) ∧
    (∀ xs : List ℝ, (∀ x ∈ xs, 0 ≤ x) → xs ≠ [] →
        List.Chain' (· ≤ ·) (cumsum xs) ∧
        (cumsum xs).getLast? = some xs.sum ∧
        pdMax (cumsum xs) = xs.sum) := by
  constructor
  · cases hz : List.zip ppt_series et_series with
    | nil => simp [calc_SMB_for_time_series, hz]
    | cons pe rest =>
        intro s hs
        rw [calc_SMB_for_time_series, hz] at hs
        have hpe1 : pe ∈ List.zip ppt_series et_series := by
          rw [hz]; exact List.mem_cons_self _ _
        have hpe : 0 ≤ pe.1 ∧ 0 ≤ pe.2 := by
          have := List.of_mem_zip (a := pe.1) (b := pe.2) (by simpa using hpe1)
          exact ⟨hp pe.1 this.1, he pe.2 this.2⟩
        have ht0 := smb_calc_t0_step_inv pe.1 pe.2 SOIL_STOR_CAP hpe.1 hpe.2
        rw [RUNOFF_FRACTION_eq, INITIAL_SOIL_STOR_eq] at hs
        rcases List.mem_cons.mp hs with h | h
        · subst h
          exact ⟨ht0.1, le_of_eq ht0.2.1.symm, le_of_eq ht0.2.2.1.symm,
            le_of_eq ht0.2.2.2.1.symm, ht0.2.2.2.2.1, ht0.2.2.2.2.2⟩
        · have hrest : ∀ q ∈ rest, 0 ≤ q.1 ∧ 0 ≤ q.2 := by
            intro q hq
            have hqz : q ∈ List.zip ppt_series et_series := by
              rw [hz]; exact List.mem_cons_of_mem pe hq
            have := List.of_mem_zip (a := q.1) (b := q.2) (by simpa using hqz)
            exact ⟨hp q.1 this.1, he q.2 this.2⟩
          have := smb_series_from_inv rest
            (smb_calc_t0 pe.1 pe.2 0 SOIL_STOR_CAP 0).ss_after_CU
            (le_of_eq ht0.2.2.2.1.symm) hrest s h
          exact ⟨this.1, this.2.1, this.2.2.1, this.2.2.2.1.1,
            this.2.2.2.2.1, this.2.2.2.2.2⟩
  · intro xs hxs hne
    refine ⟨cumsum_from_chain xs 0 hxs, ?_, ?_⟩
    · rw [cumsum, cumsum_from_getLast xs 0 hne]
      norm_num
    · rw [cumsum, cumsum_from_pdMax xs 0 hxs hne]
      norm_num

/-- Witness for partition_nonneg_cumulative at the concrete two-step
series. -/
theorem partition_nonneg_cumulative_witness :
    (∀ x ∈ [(3.058 : ℝ), 0.518], 0 ≤ x) ∧ (∀ x ∈ [(0.869 : ℝ), 1.394], 0 ≤ x) ∧
    (∀ s ∈ calc_SMB_for_time_series [3.058, 0.518] [0.869, 1.394],
        0 ≤ s.eff_ppt ∧ 0 ≤ s.ro ∧ 0 ≤ s.CU_ss ∧ 0 ≤ s.ss_after_CU ∧
        0 ≤ s.cu_AW ∧ 0 ≤ s.cu_ppt) ∧
    ((∀ x ∈ [(1 : ℝ), 2], 0 ≤ x) ∧
      List.Chain' (· ≤ ·) (cumsum [(1 : ℝ), 2]) ∧
      (cumsum [(1 : ℝ), 2]).getLast? = some ([(1 : ℝ), 2]).sum ∧
      pdMax (cumsum [(1 : ℝ), 2]) = ([(1 : ℝ), 2]).sum) :=
  ⟨by norm_num, by norm_num,
    (partition_nonneg_cumulative [3.058, 0.518] [0.869, 1.394]
      (by norm_num) (by norm_num)).1,
    by norm_num,
    (partition_nonneg_cumulative [3.058, 0.518] [0.869, 1.394]
      (by norm_num) (by norm_num)).2 [1, 2] (by norm_num) (by simp)⟩

/-- Compliance verdict (claim C5): on the quarterly applied-water column in
acre-feet built from nonnegative inches values and a nonnegative area, the
verdict computed from the cumulative column holds exactly when the water
year cumulative total is at most the configured maximum consumptive use; in
particular a tie is compliant. -/
theorem compliance_verdict (aw_col : List ℝ) (area threshold : ℝ)
    (haw : ∀ x ∈ aw_col, 0 ≤ x) (harea : 0 ≤ area) (hne : aw_col ≠ []) :
    (is_compliant (total_cons_use_AW_af (cons_use_AW_af aw_col area)) threshold
      ↔ (cons_use_AW_af aw_col area).sum ≤ threshold) ∧
    is_compliant (total_cons_use_AW_af (cons_use_AW_af aw_col area))
      ((cons_use_AW_af aw_col area).sum) := by
  have haf : ∀ x ∈ cons_use_AW_af aw_col area, 0 ≤ x := by
    intro x hx
    rcases List.mem_map.mp hx with ⟨v, hv, rfl⟩
    have hv0 : 0 ≤ v := haw v hv
    have : (0 : ℝ) ≤ INCHES_TO_FEET := by norm_num [INCHES_TO_FEET]
    positivity
  have hafne : cons_use_AW_af aw_col area ≠ [] := by
    simpa [cons_use_AW_af] using hne
  have hmax : pdMax (cumsum (cons_use_AW_af aw_col area))
      = (cons_use_AW_af aw_col area).sum := by
    rw [cumsum, cumsum_from_pdMax _ 0 haf hafne]
    norm_num
  constructor
  · rw [is_compliant, total_cons_use_AW_af, hmax]
  · rw [is_compliant, total_cons_use_AW_af, hmax]

/-- Witness for compliance_verdict at a concrete column where the
cumulative total ties the threshold. -/
theorem compliance_verdict_witness :
    (∀ x ∈ [(1 : ℝ), 2], 0 ≤ x) ∧ (0 : ℝ) ≤ 12 ∧ ([(1 : ℝ), 2] : List ℝ) ≠ [] ∧
    ((is_compliant (total_cons_use_AW_af (cons_use_AW_af [(1 : ℝ), 2] 12)) 3
        ↔ (cons_use_AW_af [(1 : ℝ), 2] 12).sum ≤ 3) ∧
      is_compliant (total_cons_use_AW_af (cons_use_AW_af [(1 : ℝ), 2] 12))
        ((cons_use_AW_af [(1 : ℝ), 2] 12).sum)) :=
  ⟨by norm_num, by norm_num, by simp,
    compliance_verdict [1, 2] 12 3 (by norm_num) (by norm_num) (by simp)⟩

/-- Water-year and quarter mapping (claim C8): for a month between one and
twelve, the derived water year is the calendar year through September and
the calendar year plus one from October, and the quarter label is Q2 for
January through March, Q3 for April through June, Q4 for July through
September, and Q1 for October through December. -/
theorem water_year_quarter_mapping (y : ℤ) (m : ℕ) (h1 : 1 ≤ m) (h12 : m ≤ 12) :
    (m ≤ 9 → water_year y m = y) ∧
    (10 ≤ m → water_year y m = y + 1) ∧
    (m ≤ 3 → quarter_of_month m = some Quarter.Q2) ∧
    (4 ≤ m → m ≤ 6 → quarter_of_month m = some Quarter.Q3) ∧
    (7 ≤ m → m ≤ 9 → quarter_of_month m = some Quarter.Q4) ∧
    (10 ≤ m → quarter_of_month m = some Quarter.Q1) := by
  interval_cases m <;> simp [water_year, quarter_of_month]

/-- Witness for water_year_quarter_mapping at year 2023, month ten. -/
theorem water_year_quarter_mapping_witness :
    (1 ≤ 10) ∧ (10 ≤ 12) ∧
    ((10 ≤ 9 → water_year 2023 10 = 2023) ∧
      (10 ≤ 10 → water_year 2023 10 = 2023 + 1) ∧
      (10 ≤ 3 → quarter_of_month 10 = some Quarter.Q2) ∧
      (4 ≤ 10 → 10 ≤ 6 → quarter_of_month 10 = some Quarter.Q3) ∧
      (7 ≤ 10 → 10 ≤ 9 → quarter_of_month 10 = some Quarter.Q4) ∧
      (10 ≤ 10 → quarter_of_month 10 = some Quarter.Q1)) :=
  ⟨by norm_num, by norm_num,
    water_year_quarter_mapping 2023 10 (by norm_num) (by norm_num)⟩

/- Facts about lookup on lists built by pairing each key with a value. -/

lemma lookup_map_pair_eq_none (l : List Quarter) (g : Quarter → QRow) (q : Quarter)
    (h : q ∉ l) :
    (l.map (fun x => (x, g x))).lookup q = none := by
  induction l with
  | nil => rfl
  | cons a t ih =>
      have hqa : q ≠ a := fun hq => h (hq ▸ List.mem_cons_self a t)
      have hqt : q ∉ t := fun hq => h (List.mem_cons_of_mem a hq)
      have hba : (q == a) = false := beq_eq_false_iff_ne.mpr hqa
      simp only [List.map, List.lookup, hba]
      exact ih hqt

/-- Aggregation reindexing (claim C6): for every per-unit series and every
target water year, the quarterly table has exactly four rows whose quarter
labels are Q1, Q2, Q3, Q4 in canonical order, and a quarter with no samples
in the target water year carries the zero row. -/
theorem aggregation_reindexing (rows : List SmbRow) (target_wy : ℤ) :
    (df_sum_quarters rows target_wy).map Prod.fst = canonical_quarters ∧
    (df_sum_quarters rows target_wy).length = 4 ∧
    ∀ q : Quarter,
      (∀ r ∈ filter_water_year rows target_wy, quarter_of_month r.month ≠ some q) →
      (q, zeroQ) ∈ df_sum_quarters rows target_wy := by
  refine ⟨?_, ?_, ?_⟩
  · simp [df_sum_quarters, reindex_fillna, List.map_map, Function.comp_def]
  · simp [df_sum_quarters, reindex_fillna, canonical_quarters]
  · intro q hq
    have hany : ∀ r ∈ filter_water_year rows target_wy, has_quarter r q = false := by
      intro r hr
      simp only [has_quarter, decide_eq_false_iff_not]
      exact hq r hr
    have hnotin : q ∉ quarter_categories.filter
        (fun x => (filter_water_year rows target_wy).any (fun r => has_quarter r x)) := by
      intro hmem
      have := (List.mem_filter.mp hmem).2
      rcases List.any_eq_true.mp this with ⟨r, hr, hrq⟩
      rw [hany r hr] at hrq
      exact Bool.false_ne_true hrq
    have hlook : (groupby_Q (filter_water_year rows target_wy)).lookup q = none := by
      rw [groupby_Q]
      exact lookup_map_pair_eq_none _ _ q hnotin
    have hqmem : q ∈ canonical_quarters := by
      cases q <;> simp [canonical_quarters]
    rw [df_sum_quarters, reindex_fillna]
    refine List.mem_map.mpr ⟨q, hqmem, ?_⟩
    rw [hlook]
    rfl

/-- Witness for aggregation_reindexing on the empty series, where every
quarter is unobserved. -/
theorem aggregation_reindexing_witness :
    ((df_sum_quarters [] 2023).map Prod.fst = canonical_quarters ∧
      (df_sum_quarters [] 2023).length = 4) ∧
    (Quarter.Q1, zeroQ) ∈ df_sum_quarters [] 2023 :=
  ⟨⟨(aggregation_reindexing [] 2023).1, (aggregation_reindexing [] 2023).2.1⟩,
    (aggregation_reindexing [] 2023).2.2 Quarter.Q1
      (by simp [filter_water_year])⟩

/-- No-data failure (claim C7): when the field identifiers of a unit match
no row of the et table the calculation fails with an error naming the
evapotranspiration variable and the field identifiers; when they match et
rows but no precipitation row it fails naming the precipitation variable;
and in either no-data situation no result value at all is returned. -/
theorem no_data_error (df_et df_pp : List FldRow) (fld_keys : List String) :
    ((df_et.filter (fun r => fld_keys.contains r.EKIfld)).isEmpty = true →
      run_consumptive_use_calcs df_et df_pp fld_keys
        = Except.error ⟨"evapotranspiration", fld_keys⟩) ∧
    ((df_et.filter (fun r => fld_keys.contains r.EKIfld)).isEmpty = false →
      (df_pp.filter (fun r => fld_keys.contains r.EKIfld)).isEmpty = true →
      run_consumptive_use_calcs df_et df_pp fld_keys
        = Except.error ⟨"precipitation", fld_keys⟩) ∧
    (((df_et.filter (fun r => fld_keys.contains r.EKIfld)).isEmpty = true ∨
        (df_pp.filter (fun r => fld_keys.contains r.EKIfld)).isEmpty = true) →
      ∀ res, run_consumptive_use_calcs df_et df_pp fld_keys ≠ Except.ok res) := by
  refine ⟨?_, ?_, ?_⟩
  · intro het
    rw [run_consumptive_use_calcs]
    simp only [het, if_true]
  · intro het hpp
    rw [run_consumptive_use_calcs]
    simp only [het, hpp, Bool.false_eq_true, if_false, if_true]
  · intro hcase res hok
    rcases hcase with het | hpp
    · rw [run_consumptive_use_calcs] at hok
      simp only [het, if_true] at hok
      exact Except.noConfusion hok
    · rw [run_consumptive_use_calcs] at hok
      by_cases het : (df_et.filter (fun r => fld_keys.contains r.EKIfld)).isEmpty = true
      · simp only [het, if_true] at hok
        exact Except.noConfusion hok
      · have het' : (df_et.filter (fun r => fld_keys.contains r.EKIfld)).isEmpty = false :=
          Bool.eq_false_iff.mpr het
        simp only [het', Bool.false_eq_true, if_false, hpp, if_true] at hok
        exact Except.noConfusion hok

/-- Witness for no_data_error with an empty et table and one field key, in
which case the error names the evapotranspiration variable and the key. -/
theorem no_data_error_witness :
    (([] : List FldRow).filter (fun r => ["FLD7"].contains r.EKIfld)).isEmpty = true ∧
    run_consumptive_use_calcs [] [] ["FLD7"]
      = Except.error ⟨"evapotranspiration", ["FLD7"]⟩ ∧
    ∀ res, run_consumptive_use_calcs [] [] ["FLD7"] ≠ Except.ok res :=
  ⟨rfl,
    (no_data_error [] [] ["FLD7"]).1 rfl,
    (no_data_error [] [] ["FLD7"]).2.2 (Or.inl rfl)⟩

end
